import Mathlib

/-!
Shallow embedding of the Jira sprint-analytics engine of this repository:
src/services/jira/issue_service.py, src/services/jira/sprint_service.py,
src/services/jira/board_service.py and src/services/jira/jira_analyzer.py,
together with the relevant pydantic models (src/services/jira/models).

Modelling conventions, stated once:

* Timestamp strings are parsed through an explicit parameter
  parse : String -> Option Int standing for both dateutil isoparse and
  datetime.fromisoformat; a none result models the parser raising.  Instants
  and durations are integers (seconds); timedelta.days is floor division by
  86400.
* Issue created and updated timestamps are kept pre-parsed as integers,
  since every validated pydantic Issue carries well-formed values there.
* Python dicts keep insertion order; a dict keyed by status is therefore an
  association list in which updating an existing key keeps its position and a
  binding for a new key is appended at the end.
* Python float averages are modelled as exact rationals.
* Python truthiness of strings and lists (empty means false) is modelled
  explicitly where the source relies on it.
* An exception escaping a unit of work is modelled as an input flag exactly
  where the source lets one escape: SprintInput.raises says an exception
  escapes JiraAnalyzer._analyze_sprint for that sprint (for example a
  malformed sprint object), and BoardInput.infoRaises says building the board
  info dict raises inside JiraAnalyzer._analyze_board (for example the board
  object lacking an attribute); those are the only places the analyzer code
  does not guard with its own try/except.
-/

/-- One entry of a changelog item list (model ChangelogItem of
src/services/jira/models/tracking.py): field name, field type, optional
fieldId, from / fromString / to / toString values. -/
structure ChangelogItem where
  field : String
  fieldtype : String
  field_id : Option String
  from_id : Option String
  from_string : Option String
  to_id : Option String
  to_string : Option String
deriving DecidableEq, Repr

/-- A changelog record (model Changelog of tracking.py): id, creation
timestamp string and its items.  The author field is never read by the
analytics code and is omitted. -/
structure Changelog where
  id : String
  created : String
  items : List ChangelogItem
deriving DecidableEq, Repr

/-- A sprint as the services see it.  The source has two aligned spellings of
the date attributes (raw client objects use startDate / endDate, the pydantic
Sprint uses start_date / end_date); both are modelled by one field each.
endDate = none models a missing or None end date; the Python falsy check also
treats an empty string as absent, which is modelled where it occurs. -/
structure SprintM where
  id : Int
  name : String
  state : String
  startDate : String
  endDate : Option String
deriving DecidableEq, Repr

/-- The parts of a validated pydantic Issue that the metrics code reads:
key, fields.summary, fields.priority.name (none when priority is None), and
the pre-parsed fields.created / fields.updated timestamps. -/
structure IssueE where
  key : String
  summary : String
  priority : Option String
  created : Int
  updated : Int
deriving DecidableEq, Repr

/-- A value appearing in an issue list handed to the metrics aggregators.
valid i is a real Issue object, on which hasattr checks for fields, key,
fields.created and fields.updated succeed.  dump i is the dict produced by
get_issue_info via model_dump: it still carries the issue data as dict keys,
but a Python dict has no such attributes, so every hasattr check on it is
False. -/
inductive IssueObj where
  | valid (i : IssueE)
  | dump (i : IssueE)
deriving DecidableEq, Repr

/-- The date_range sub-dict of a sprint filter configuration. -/
structure DateRange where
  enabled : Bool
  start_date : Int
  end_date : Int
deriving DecidableEq, Repr

/-- A sprint filter configuration dict.  date_range = none models the key
being absent (filter_config.get with default). -/
structure FilterConfig where
  specific_sprint_ids : List Int
  date_range : Option DateRange
  sprint_states : List String
  include_no_end_date : Bool
deriving DecidableEq, Repr

/-- The dict returned by IssueService.calculate_resolution_metrics.  The
zero-valued early returns build a dict with only the count, avg and max keys;
min_resolution_days = none models that key being absent. -/
structure ResolutionMetrics where
  count : Nat
  avg_resolution_days : Rat
  max_resolution_days : Int
  min_resolution_days : Option Int
deriving DecidableEq, Repr

/-- The dict built for the longest-resolution issue. -/
structure LongestInfo where
  key : String
  summary : String
  priority : String
  resolution_days : Int
  created_date : Int
  updated_date : Int
deriving DecidableEq, Repr

/-- The dict returned by calculate_priority_distribution. -/
structure PriorityDistribution where
  critical : Nat
  major : Nat
  minor : Nat
  total : Nat
deriving DecidableEq, Repr

/-- The dict returned by get_sprint_detailed_metrics.  none in the two option
fields models an empty dict (or a Python None) in the source. -/
structure DetailedMetrics where
  total_issues : Nat
  resolution_metrics : Option ResolutionMetrics
  longest_resolution_issue : Option LongestInfo
  priority_distribution : PriorityDistribution
deriving DecidableEq, Repr

/-- Issue.resolution_time_days of models/issue.py: the days component of
updated - created, i.e. floor division of the difference by one day. -/
def resolution_time_days (i : IssueE) : Int :=
  (i.updated - i.created).fdiv 86400

/-- The validation performed per issue by calculate_resolution_metrics and
get_longest_resolution_issue: hasattr(issue, "fields") and
hasattr(issue.fields, "created") and hasattr(issue.fields, "updated").
True on an Issue object, False on a model_dump dict. -/
def hasRequiredFields : IssueObj → Bool
  | .valid _ => true
  | .dump _ => false

/-- The validation performed by get_sprint_detailed_metrics:
hasattr(issue, "fields") and hasattr(issue, "key"). -/
def hasFieldsAndKey : IssueObj → Bool
  | .valid _ => true
  | .dump _ => false

/-- Python max over a non-empty list (the empty case never occurs at the call
site and is given a dummy value). -/
def pyMax : List Int → Int
  | [] => 0
  | x :: xs => xs.foldl max x

/-- Python min over a non-empty list (the empty case never occurs at the call
site and is given a dummy value). -/
def pyMin : List Int → Int
  | [] => 0
  | x :: xs => xs.foldl min x

/-- The resolution_times list collected by the loop of
calculate_resolution_metrics: the resolution days of the issues passing the
hasattr validation, in input order. -/
def resolutionTimes (issues : List IssueObj) : List Int :=
  issues.filterMap fun x =>
    match x with
    | .valid i => some (resolution_time_days i)
    | .dump _ => none

/-- IssueService.calculate_resolution_metrics.  Issues failing the hasattr
validation are skipped; an empty input or an empty list of collected
resolution times yields the three-key zero dict (no min key).  The average is
the exact value of the Python float division. -/
def calculate_resolution_metrics (issues : List IssueObj) : ResolutionMetrics :=
  if issues.isEmpty then ⟨0, 0, 0, none⟩
  else if (resolutionTimes issues).isEmpty then ⟨0, 0, 0, none⟩
  else
    ⟨(resolutionTimes issues).length,
     Rat.divInt (resolutionTimes issues).sum (resolutionTimes issues).length,
     pyMax (resolutionTimes issues),
     some (pyMin (resolutionTimes issues))⟩

/-- The dict built inside get_longest_resolution_issue when a new maximum is
found. -/
def mkLongestInfo (i : IssueE) : LongestInfo :=
  ⟨i.key, i.summary, i.priority.getD "None", resolution_time_days i,
   i.created, i.updated⟩

/-- The loop of get_longest_resolution_issue, carrying the running maximum
(initially 0) and the best dict so far (initially None).  An issue failing
the hasattr validation is skipped; the comparison is strict. -/
def longestLoop : List IssueObj → Int → Option LongestInfo → Option LongestInfo
  | [], _, best => best
  | x :: rest, maxD, best =>
    match x with
    | .dump _ => longestLoop rest maxD best
    | .valid i =>
      if maxD < resolution_time_days i then
        longestLoop rest (resolution_time_days i) (some (mkLongestInfo i))
      else
        longestLoop rest maxD best

/-- IssueService.get_longest_resolution_issue.  none models both the empty
dict returned for an empty input and the Python None returned when no issue
ever exceeds the initial maximum of 0. -/
def get_longest_resolution_issue (issues : List IssueObj) : Option LongestInfo :=
  if issues.isEmpty then none
  else longestLoop issues 0 none

/-- Python str.lower, modelled as lowering each character. -/
def pyLower (s : String) : String := String.mk (s.data.map Char.toLower)

/-- IssueService.classify_priority.  The Python truthiness test on the name
is the emptiness test; the lowered name is inlined at each comparison. -/
def classify_priority (priority_name : String) : String :=
  if priority_name = "" then "minor"
  else if pyLower priority_name = "highest" ∨ pyLower priority_name = "high" then "critical"
  else if pyLower priority_name = "medium" then "major"
  else if pyLower priority_name = "low" ∨ pyLower priority_name = "lowest" then "minor"
  else "minor"

/-- Incrementing the bucket chosen by classify_priority (the category is
always one of the three bucket keys). -/
def bumpPriority (d : PriorityDistribution) (category : String) : PriorityDistribution :=
  if category = "critical" then { d with critical := d.critical + 1 }
  else if category = "major" then { d with major := d.major + 1 }
  else { d with minor := d.minor + 1 }

/-- IssueService.calculate_priority_distribution.  Reading fields.priority on
a model_dump dict raises AttributeError, whose handler counts the issue as
minor; on an Issue object a None priority is rendered as the name "None",
which classifies as minor. -/
def calculate_priority_distribution (issues : List IssueObj) : PriorityDistribution :=
  issues.foldl
    (fun d x =>
      match x with
      | .valid i => bumpPriority d (classify_priority (i.priority.getD "None"))
      | .dump _ => bumpPriority d "minor")
    ⟨0, 0, 0, issues.length⟩

/-- IssueService.get_sprint_detailed_metrics. -/
def get_sprint_detailed_metrics (issues : List IssueObj) : DetailedMetrics :=
  if issues.isEmpty then ⟨0, none, none, ⟨0, 0, 0, 0⟩⟩
  else
    let valid_issues := issues.filter hasFieldsAndKey
    if valid_issues.isEmpty then ⟨0, none, none, ⟨0, 0, 0, 0⟩⟩
    else
      ⟨valid_issues.length,
       some (calculate_resolution_metrics valid_issues),
       get_longest_resolution_issue valid_issues,
       calculate_priority_distribution valid_issues⟩

/-- Python x or y on optional strings: the left value unless it is None or
the empty string (both falsy). -/
def pyOr (a b : Option String) : Option String :=
  match a with
  | some s => if s = "" then b else some s
  | none => b

/-- next((it for it in changelog.items if it.field_id == "status"), None). -/
def findStatusItem (c : Changelog) : Option ChangelogItem :=
  c.items.find? fun it => it.field_id == some "status"

/-- IssueService.filter_status_changelogs: keep entries having at least one
item whose field_id is status. -/
def filter_status_changelogs (changelogs : List Changelog) : List Changelog :=
  changelogs.filter fun c => c.items.any fun it => it.field_id == some "status"

/-- The sort key of calculate_time_per_status: the parsed creation timestamp.
The default is never reached on the guarded path, where every entry parses. -/
def sortKey (parse : String → Option Int) (c : Changelog) : Int :=
  (parse c.created).getD 0

/-- Stable insertion of an entry into a list already sorted by sortKey:
it walks past strictly smaller keys and stops before equal ones, so that
among equal keys the original order is kept. -/
def insertByCreated (parse : String → Option Int) (c : Changelog) :
    List Changelog → List Changelog
  | [] => [c]
  | d :: ds =>
    if sortKey parse d < sortKey parse c then d :: insertByCreated parse c ds
    else c :: d :: ds

/-- Python sorted(status_changelogs, key = parsed created): a stable
ascending sort by the parsed creation timestamp. -/
def sortByCreated (parse : String → Option Int) (l : List Changelog) : List Changelog :=
  l.foldr (insertByCreated parse) []

/-- The per-status accumulator dict of calculate_time_per_status, in Python
dict insertion order.  The key is the resolved originating status, which may
be None. -/
abbrev StatusMap := List (Option String × Int)

/-- defaultdict accumulation: add d to the existing binding for k, keeping
its position, or append a new binding at the end. -/
def bumpStatus (k : Option String) (d : Int) : StatusMap → StatusMap
  | [] => [(k, d)]
  | (k', v) :: rest =>
    if k' = k then (k', v + d) :: rest else (k', v) :: bumpStatus k d rest

/-- One iteration of the loop of calculate_time_per_status on the adjacent
pair (c1, c2): none models the AttributeError raised when c1 has no status
item (reading from on None), which aborts the loop; otherwise the originating
status (from value, id if truthy else readable name) of c1 is credited with
the timestamp difference. -/
def timeStep (parse : String → Option Int) (c1 c2 : Changelog) (acc : StatusMap) :
    Option StatusMap :=
  match findStatusItem c1 with
  | none => none
  | some it =>
    some (bumpStatus (pyOr it.from_id it.from_string)
      (sortKey parse c2 - sortKey parse c1) acc)

/-- The loop for c in range(len(sorted_changelogs) - 2) of
calculate_time_per_status: pairs (l[c], l[c+1]) are processed only while at
least three entries remain, which is exactly the indices 0 .. n-3.  A raised
step returns the accumulator gathered so far. -/
def timeLoop (parse : String → Option Int) : List Changelog → StatusMap → StatusMap
  | c1 :: c2 :: c3 :: rest, acc =>
    match timeStep parse c1 c2 acc with
    | none => acc
    | some acc2 => timeLoop parse (c2 :: c3 :: rest) acc2
  | _, acc => acc

/-- IssueService.calculate_time_per_status.  If any entry timestamp fails to
parse, sorted raises inside the try block and the accumulator, still empty,
is returned. -/
def calculate_time_per_status (parse : String → Option Int)
    (status_changelogs : List Changelog) : StatusMap :=
  if status_changelogs.all (fun c => (parse c.created).isSome) then
    timeLoop parse (sortByCreated parse status_changelogs) []
  else []

/-- Reference variant of the same loop that processes every adjacent pair
(indices 0 .. n-2), with identical per-pair behaviour, used to state what the
source loop computes relative to the full duration chain. -/
def adjacentPairDurations (parse : String → Option Int) :
    List Changelog → StatusMap → StatusMap
  | c1 :: c2 :: rest, acc =>
    match timeStep parse c1 c2 acc with
    | none => acc
    | some acc2 => adjacentPairDurations parse (c2 :: rest) acc2
  | _, acc => acc

/-- The membership test of filter_changelogs_by_sprint_dates: the entry date
is at least the sprint start, and at most the sprint end when one exists. -/
def inWindow (ss : Int) (se : Option Int) (d : Int) : Bool :=
  decide (ss ≤ d) && (match se with | none => true | some e => decide (d ≤ e))

/-- The entry loop of filter_changelogs_by_sprint_dates: none models an
isoparse exception on some entry timestamp, which propagates out of the
loop. -/
def windowLoop (parse : String → Option Int) (ss : Int) (se : Option Int) :
    List Changelog → Option (List Changelog)
  | [] => some []
  | c :: rest =>
    match parse c.created with
    | none => none
    | some d =>
      (windowLoop parse ss se rest).map fun f =>
        if inWindow ss se d then c :: f else f

/-- sprint_end = isoparse(sprint.end_date) if sprint.end_date else None:
the outer none models the parse raising, some none a falsy end date. -/
def pyEndTs (parse : String → Option Int) (s : SprintM) : Option (Option Int) :=
  match s.endDate with
  | none => some none
  | some e => if e = "" then some none else (parse e).map some

/-- IssueService.filter_changelogs_by_sprint_dates: on any parse exception
(sprint start, sprint end, or an entry timestamp) the except handler returns
the original list; otherwise exactly the entries inside the sprint window are
kept. -/
def filter_changelogs_by_sprint_dates (parse : String → Option Int)
    (changelogs : List Changelog) (sprint : SprintM) : List Changelog :=
  match parse sprint.startDate with
  | none => changelogs
  | some ss =>
    match pyEndTs parse sprint with
    | none => changelogs
    | some se =>
      match windowLoop parse ss se changelogs with
      | none => changelogs
      | some filtered => filtered

/-- An issue together with its fetched changelogs, as consumed by
get_avg_time_per_status (which reads only the key, to fetch the logs). -/
structure IssueLogs where
  key : String
  changelogs : List Changelog
deriving DecidableEq, Repr

/-- The defaultdict(list) of get_avg_time_per_status, in insertion order. -/
abbrev StatusTimes := List (Option String × List Int)

/-- Append one observed duration for a status: extend the existing binding in
place or append a new one. -/
def appendStatusTime (k : Option String) (t : Int) : StatusTimes → StatusTimes
  | [] => [(k, [t])]
  | (k', ts) :: rest =>
    if k' = k then (k', ts ++ [t]) :: rest else (k', ts) :: appendStatusTime k t rest

/-- IssueService.get_avg_time_per_status: per issue, optionally restrict the
changelogs to the sprint window, keep status entries, compute per-status
durations and collect them, then average each status over the issues that
contributed to it. -/
def get_avg_time_per_status (parse : String → Option Int)
    (issues : List IssueLogs) (sprint : Option SprintM) :
    List (Option String × Rat) :=
  let all_status_times : StatusTimes :=
    issues.foldl
      (fun acc il =>
        let cls := match sprint with
          | some s => filter_changelogs_by_sprint_dates parse il.changelogs s
          | none => il.changelogs
        let status_cls := filter_status_changelogs cls
        (calculate_time_per_status parse status_cls).foldl
          (fun a kt => appendStatusTime kt.1 kt.2 a) acc)
      []
  all_status_times.filterMap fun kts =>
    if kts.2.isEmpty then none
    else some (kts.1, Rat.divInt kts.2.sum kts.2.length)

/-- SprintService._sprint_matches_state: case-insensitive membership of the
sprint state in the allowed states. -/
def _sprint_matches_state (s : SprintM) (allowed_states : List String) : Bool :=
  (allowed_states.map pyLower).contains (pyLower s.state)

/-- SprintService._sprint_in_date_range.  A sprint with a falsy end date
(absent, None or empty) is decided by include_no_end_date alone, before any
parsing; otherwise both sprint dates are parsed (a parse exception hits the
except handler, which returns False) and the inclusive overlap test is
sprint_start at most range end and sprint_end at least range start. -/
def _sprint_in_date_range (parse : String → Option Int) (s : SprintM)
    (start_date end_date : Int) (cfg : FilterConfig) : Bool :=
  match s.endDate with
  | none => cfg.include_no_end_date
  | some e =>
    if e = "" then cfg.include_no_end_date
    else
      match parse s.startDate, parse e with
      | some sprint_start, some sprint_end =>
        decide (sprint_start ≤ end_date) && decide (start_date ≤ sprint_end)
      | _, _ => false

/-- The date-range block of _sprint_matches_filters: when the date_range
sub-dict exists and is enabled, the overlap test, otherwise no constraint. -/
def dateRangeCheck (parse : String → Option Int) (s : SprintM) (cfg : FilterConfig) : Bool :=
  match cfg.date_range with
  | some dr =>
    if dr.enabled then _sprint_in_date_range parse s dr.start_date dr.end_date cfg
    else true
  | none => true

/-- SprintService._sprint_matches_filters, with its sequence of early
returns: a non-empty specific_sprint_ids list decides membership alone;
otherwise the enabled date-range check can only exclude, after which a
non-empty sprint_states list can also exclude. -/
def _sprint_matches_filters (parse : String → Option Int) (s : SprintM)
    (cfg : FilterConfig) : Bool :=
  if !cfg.specific_sprint_ids.isEmpty then
    cfg.specific_sprint_ids.contains s.id
  else if !dateRangeCheck parse s cfg then
    false
  else if !cfg.sprint_states.isEmpty then
    _sprint_matches_state s cfg.sprint_states
  else
    true

/-- SprintService._apply_sprint_filters. -/
def _apply_sprint_filters (parse : String → Option Int) (sprints : List SprintM)
    (cfg : FilterConfig) : List SprintM :=
  sprints.filter fun s => _sprint_matches_filters parse s cfg

/-- The dict returned by SprintService.get_sprint_info, with the date fields
kept as parsed instants (the source formats them as date strings). -/
structure SprintInfo where
  id : Int
  name : String
  start_date : Int
  end_date : Int
  state : String
  is_active : Bool
deriving DecidableEq, Repr

/-- SprintService.is_sprint_active at an explicit current time: both sprint
dates must parse (a missing end date makes fromisoformat raise, the handler
returns False) and the current time must lie strictly between them. -/
def is_sprint_active (parse : String → Option Int) (now : Int) (s : SprintM) : Bool :=
  match parse s.startDate, s.endDate.bind parse with
  | some st, some en => decide (st < now) && decide (now < en)
  | _, _ => false

/-- SprintService.get_sprint_info: none models the empty dict returned when
parsing either sprint date raises. -/
def get_sprint_info (parse : String → Option Int) (now : Int) (s : SprintM) :
    Option SprintInfo :=
  match parse s.startDate, s.endDate.bind parse with
  | some st, some en =>
    some ⟨s.id, s.name, st, en, s.state, is_sprint_active parse now s⟩
  | _, _ => none

/-- One sprint of a board as the analyzer consumes it: the sprint object, the
done bugs returned by get_done_bugs_for_sprint, the issues (with their
fetched changelogs) returned by get_issues_for_sprint, and the flag saying an
exception escapes _analyze_sprint for this sprint. -/
structure SprintInput where
  sprint : SprintM
  bugs : List IssueE
  issues : List IssueLogs
  raises : Bool
deriving DecidableEq, Repr

/-- One board of a project as the analyzer consumes it: the board attributes
read by get_board_info, the (already fetched and filtered) sprints delivered
by SprintService.get_sprints_for_board — which guards its own body and never
raises into the analyzer — and the flag saying building the board info dict
raises. -/
structure BoardInput where
  id : Int
  name : String
  type : String
  projectKey : Option String
  sprints : List SprintInput
  infoRaises : Bool
deriving DecidableEq, Repr

/-- The dict returned by BoardService.get_board_info. -/
structure BoardInfo where
  id : Int
  name : String
  type : String
  project_key : String
deriving DecidableEq, Repr

/-- BoardService.get_board_info (projectKey has getattr default Unknown). -/
def get_board_info (b : BoardInput) : BoardInfo :=
  ⟨b.id, b.name, b.type, b.projectKey.getD "Unknown"⟩

/-- BoardService.filter_scrum_boards: restrict to the explicit allow-list. -/
def filter_scrum_boards (boards : List BoardInput) (scrum_board_ids : List Int) :
    List BoardInput :=
  boards.filter fun b => scrum_board_ids.contains b.id

/-- The per-sprint dict assembled by JiraAnalyzer._analyze_sprint. -/
structure SprintResult where
  sprint_info : Option SprintInfo
  issues : List IssueObj
  issue_count : Nat
  metrics : DetailedMetrics
  status_deltas : List (Option String × Rat)
deriving DecidableEq, Repr

/-- JiraAnalyzer._analyze_sprint: the issues entry holds the model_dump dicts
produced by get_issue_info for the done bugs, while the detailed metrics are
computed from the raw Issue objects of the same bugs. -/
def _analyze_sprint (parse : String → Option Int) (now : Int) (si : SprintInput) :
    SprintResult :=
  { sprint_info := get_sprint_info parse now si.sprint
    issues := si.bugs.map IssueObj.dump
    issue_count := si.bugs.length
    metrics := get_sprint_detailed_metrics (si.bugs.map IssueObj.valid)
    status_deltas := get_avg_time_per_status parse si.issues (some si.sprint) }

/-- The per-board dict assembled by JiraAnalyzer._analyze_board. -/
structure BoardResult where
  board_info : BoardInfo
  sprints : List SprintResult
  total_issues : Nat
deriving DecidableEq, Repr

/-- The sprint loop of _analyze_board, appending each sprint result and
adding its issue count; a sprint whose analysis raises aborts the loop at the
results accumulated so far (the except handler of _analyze_board). -/
def sprintsLoop (parse : String → Option Int) (now : Int) :
    List SprintInput → List SprintResult × Nat → List SprintResult × Nat
  | [], acc => acc
  | si :: rest, (rs, n) =>
    if si.raises then (rs, n)
    else
      let r := _analyze_sprint parse now si
      sprintsLoop parse now rest (rs ++ [r], n + r.issue_count)

/-- JiraAnalyzer._analyze_board: building the board info dict happens before
the try block, so an exception there (error) escapes to analyze_project;
everything after is guarded and the board dict is always returned. -/
def _analyze_board (parse : String → Option Int) (now : Int) (b : BoardInput) :
    Except Unit BoardResult :=
  if b.infoRaises then .error ()
  else
    .ok ⟨get_board_info b,
         (sprintsLoop parse now b.sprints ([], 0)).1,
         (sprintsLoop parse now b.sprints ([], 0)).2⟩

/-- The board loop of analyze_project, appending each board result and adding
its issue total; a board whose analysis raises aborts the loop (and the flag
records that the except handler of analyze_project ran, skipping the overall
metrics assignment). -/
def boardsLoop (parse : String → Option Int) (now : Int) :
    List BoardInput → List BoardResult × Nat × Bool → List BoardResult × Nat × Bool
  | [], acc => acc
  | b :: rest, (rs, n, _) =>
    match _analyze_board parse now b with
    | .error _ => (rs, n, true)
    | .ok r => boardsLoop parse now rest (rs ++ [r], n + r.total_issues, false)

/-- The all_issues concatenation of analyze_project: for each board result,
for each sprint result, extend by its issues entry (the model_dump dicts). -/
def collectAllIssues (brs : List BoardResult) : List IssueObj :=
  brs.foldl (fun acc br => br.sprints.foldl (fun a sr => a ++ sr.issues) acc) []

/-- The results dict of JiraAnalyzer.analyze_project.  The overall metrics
entry is initialised to an empty dict (none) and only assigned at the end of
the try block, so it stays none when a board-level exception aborts the
walk. -/
structure ProjectResult where
  project : String
  boards : List BoardResult
  total_issues : Nat
  total_resolution_metrics : Option ResolutionMetrics
  filter_config_used : Option FilterConfig
deriving DecidableEq, Repr

/-- JiraAnalyzer.analyze_project over the boards delivered by the board
service (get_boards_for_project guards its own body, returning an empty list
on failure, so the board list itself is an input). -/
def analyze_project (parse : String → Option Int) (now : Int) (project : String)
    (boards : List BoardInput) (scrum_board_ids : List Int)
    (sprint_filter_config : Option FilterConfig) : ProjectResult :=
  let r := boardsLoop parse now (filter_scrum_boards boards scrum_board_ids) ([], 0, false)
  { project := project
    boards := r.1
    total_issues := r.2.1
    total_resolution_metrics :=
      if r.2.2 then none
      else some (calculate_resolution_metrics (collectAllIssues r.1))
    filter_config_used := sprint_filter_config }

/-- A concrete timestamp parser for witnesses and counterexamples: a
non-empty string of decimal digits denotes that many seconds, anything else
fails to parse. -/
def natTs (s : String) : Option Int :=
  if s.data ≠ [] ∧ s.data.all Char.isDigit then
    some (Int.ofNat (s.data.foldl (fun n c => 10 * n + (c.toNat - 48)) 0))
  else none

/-- Auxiliary for specifying get_longest_resolution_issue: the running
maximum of resolution days over a list, folded from an initial value (the
source initialises it to 0). -/
def foldMaxFrom (m : Int) (l : List IssueE) : Int :=
  l.foldl (fun acc i => max acc (resolution_time_days i)) m

/-- The board result _analyze_board produces when building the board info
does not raise: the results of the longest prefix of sprints whose analysis
does not raise, with their summed issue counts. -/
def boardOkResult (parse : String → Option Int) (now : Int) (b : BoardInput) : BoardResult :=
  ⟨get_board_info b,
   (b.sprints.takeWhile fun si => !si.raises).map (_analyze_sprint parse now),
   ((b.sprints.takeWhile fun si => !si.raises).map
      fun si => (_analyze_sprint parse now si).issue_count).sum⟩

/-- With an empty specific_sprint_ids list, the sprint filter is the
conjunction of the date-range check and the sprint_states check: each of the
two blocks can only exclude, so falling through both is passing both. -/
theorem matches_filters_eq_conj (parse : String → Option Int) (s : SprintM)
    (cfg : FilterConfig) (h : cfg.specific_sprint_ids = []) :
    _sprint_matches_filters parse s cfg =
      (dateRangeCheck parse s cfg
       && (cfg.sprint_states.isEmpty || _sprint_matches_state s cfg.sprint_states)) := by
  unfold _sprint_matches_filters
  rw [h]
  cases hd : dateRangeCheck parse s cfg with
  | false => simp
  | true =>
    cases hs : cfg.sprint_states.isEmpty with
    | false => simp [hs]
    | true => simp [hs]

/-- The entry loop of the sprint-window filter raises (and so the filter
falls into its except branch) exactly when some entry timestamp fails to
parse. -/
theorem windowLoop_eq_none (parse : String → Option Int) (ss : Int) (se : Option Int) :
    ∀ (l : List Changelog), (∃ c ∈ l, parse c.created = none) →
      windowLoop parse ss se l = none := by
  intro l
  induction l with
  | nil => simp
  | cons c rest ih =>
    intro h
    rcases h with ⟨d, hd, hnone⟩
    rcases List.mem_cons.mp hd with rfl | hmem
    · simp [windowLoop, hnone]
    · unfold windowLoop
      cases hp : parse c.created with
      | none => rfl
      | some v => rw [ih ⟨d, hmem, hnone⟩]; rfl

/-- When every entry timestamp parses, the entry loop of the sprint-window
filter keeps exactly the entries inside the window, in order. -/
theorem windowLoop_eq_filter (parse : String → Option Int) (ss : Int) (se : Option Int) :
    ∀ (l : List Changelog), (∀ c ∈ l, (parse c.created).isSome) →
      windowLoop parse ss se l =
        some (l.filter fun c => inWindow ss se ((parse c.created).getD 0)) := by
  intro l
  induction l with
  | nil => simp [windowLoop]
  | cons c rest ih =>
    intro h
    have hc := h c (List.mem_cons_self c rest)
    cases hp : parse c.created with
    | none => rw [hp] at hc; simp at hc
    | some d =>
      unfold windowLoop
      rw [hp, ih (fun x hx => h x (List.mem_cons_of_mem c hx))]
      rw [List.filter_cons, hp]
      by_cases hw : inWindow ss se d
      · simp [hw, Option.map]
      · simp [hw, Option.map]

/-- The loop bounded by len - 2 computes the same result as the full
adjacent-pair loop run on the sorted list with its final entry removed: the
pair formed by the second-to-last and last entries is exactly the one it
never processes. -/
theorem timeLoop_eq_adjacent_dropLast (parse : String → Option Int) :
    ∀ (l : List Changelog) (acc : StatusMap),
      timeLoop parse l acc = adjacentPairDurations parse l.dropLast acc
  | [], _ => rfl
  | [_], _ => rfl
  | [_, _], _ => rfl
  | c1 :: c2 :: c3 :: rest, acc => by
    show (match timeStep parse c1 c2 acc with
          | none => acc
          | some acc2 => timeLoop parse (c2 :: c3 :: rest) acc2)
        = adjacentPairDurations parse ((c1 :: c2 :: c3 :: rest).dropLast) acc
    rw [show (c1 :: c2 :: c3 :: rest).dropLast
          = c1 :: c2 :: (c3 :: rest).dropLast from rfl]
    cases h : timeStep parse c1 c2 acc with
    | none =>
      show acc = adjacentPairDurations parse (c1 :: c2 :: (c3 :: rest).dropLast) acc
      rw [show adjacentPairDurations parse (c1 :: c2 :: (c3 :: rest).dropLast) acc
            = (match timeStep parse c1 c2 acc with
               | none => acc
               | some acc2 => adjacentPairDurations parse (c2 :: (c3 :: rest).dropLast) acc2)
          from rfl, h]
    | some acc2 =>
      show timeLoop parse (c2 :: c3 :: rest) acc2
          = adjacentPairDurations parse (c1 :: c2 :: (c3 :: rest).dropLast) acc
      rw [show adjacentPairDurations parse (c1 :: c2 :: (c3 :: rest).dropLast) acc
            = (match timeStep parse c1 c2 acc with
               | none => acc
               | some acc2 => adjacentPairDurations parse (c2 :: (c3 :: rest).dropLast) acc2)
          from rfl, h]
      rw [timeLoop_eq_adjacent_dropLast parse (c2 :: c3 :: rest) acc2]
      rw [show (c2 :: c3 :: rest).dropLast = c2 :: (c3 :: rest).dropLast from rfl]

/-- The fold seed never exceeds the folded maximum. -/
theorem le_foldMaxFrom (l : List IssueE) : ∀ m : Int, m ≤ foldMaxFrom m l := by
  induction l with
  | nil => intro m; simp [foldMaxFrom]
  | cons i t ih =>
    intro m
    have h1 : m ≤ max m (resolution_time_days i) := le_max_left _ _
    have h2 := ih (max m (resolution_time_days i))
    exact le_trans h1 h2

/-- Invariant of the get_longest_resolution_issue loop over issues that all
pass the hasattr validation: if some issue strictly exceeds the running
maximum, the result describes the first issue attaining the folded maximum,
otherwise the incoming best value is returned unchanged. -/
theorem longestLoop_spec (l : List IssueE) : ∀ (m : Int) (b : Option LongestInfo),
    longestLoop (l.map IssueObj.valid) m b =
      if m < foldMaxFrom m l then
        (l.find? fun i => decide (resolution_time_days i = foldMaxFrom m l)).map
          mkLongestInfo
      else b := by
  induction l with
  | nil =>
    intro m b
    simp [longestLoop, foldMaxFrom]
  | cons i t ih =>
    intro m b
    have hfold : foldMaxFrom m (i :: t)
        = foldMaxFrom (max m (resolution_time_days i)) t := rfl
    by_cases hd : m < resolution_time_days i
    · have hmax : max m (resolution_time_days i) = resolution_time_days i :=
        max_eq_right hd.le
      have hlf := le_foldMaxFrom t (resolution_time_days i)
      simp only [List.map_cons, longestLoop, if_pos hd]
      rw [ih (resolution_time_days i) (some (mkLongestInfo i)), hfold, hmax]
      by_cases himp : resolution_time_days i < foldMaxFrom (resolution_time_days i) t
      · rw [if_pos himp, if_pos (lt_of_lt_of_le hd hlf)]
        rw [List.find?_cons]
        have hne : (decide (resolution_time_days i
            = foldMaxFrom (resolution_time_days i) t)) = false := by
          simp [ne_of_lt himp]
        rw [hne]
      · have heq : foldMaxFrom (resolution_time_days i) t = resolution_time_days i :=
          le_antisymm (not_lt.mp himp) hlf
        rw [if_neg himp, if_pos (by rw [heq]; exact hd)]
        rw [List.find?_cons]
        have hyes : (decide (resolution_time_days i
            = foldMaxFrom (resolution_time_days i) t)) = true := by
          simp [heq]
        rw [hyes]
        rfl
    · have hmax : max m (resolution_time_days i) = m := max_eq_left (not_lt.mp hd)
      simp only [List.map_cons, longestLoop, if_neg hd]
      rw [ih m b, hfold, hmax]
      by_cases himp : m < foldMaxFrom m t
      · rw [if_pos himp, if_pos himp]
        rw [List.find?_cons]
        have hne : (decide (resolution_time_days i = foldMaxFrom m t)) = false := by
          have : resolution_time_days i < foldMaxFrom m t :=
            lt_of_le_of_lt (not_lt.mp hd) himp
          simp [ne_of_lt this]
        rw [hne]
      · rw [if_neg himp, if_neg himp]

/-- The sprint loop of _analyze_board appends the results of the longest
prefix of sprints whose analysis does not raise, and adds their issue
counts. -/
theorem sprintsLoop_spec (parse : String → Option Int) (now : Int) :
    ∀ (l : List SprintInput) (rs : List SprintResult) (n : Nat),
      sprintsLoop parse now l (rs, n) =
        (rs ++ (l.takeWhile fun si => !si.raises).map (_analyze_sprint parse now),
         n + ((l.takeWhile fun si => !si.raises).map
                fun si => (_analyze_sprint parse now si).issue_count).sum) := by
  intro l
  induction l with
  | nil => intro rs n; simp [sprintsLoop]
  | cons si rest ih =>
    intro rs n
    by_cases h : si.raises
    · simp [sprintsLoop, h, List.takeWhile_cons]
    · simp only [sprintsLoop, h, if_neg, Bool.not_false, List.takeWhile_cons,
        if_true, List.map_cons, List.sum_cons]
      rw [ih]
      simp [List.append_assoc]
      omega

/-- A board whose info construction does not raise always yields a board
result, namely the one made of its non-raising prefix of sprints. -/
theorem analyze_board_ok (parse : String → Option Int) (now : Int) (b : BoardInput)
    (h : b.infoRaises = false) :
    _analyze_board parse now b = .ok (boardOkResult parse now b) := by
  unfold _analyze_board boardOkResult
  rw [if_neg (by simp [h])]
  rw [sprintsLoop_spec]
  simp

/-- The board loop of analyze_project appends the results of the longest
prefix of boards whose info construction does not raise, adds their issue
totals, and records whether the walk was aborted by a board-level
exception. -/
theorem boardsLoop_spec (parse : String → Option Int) (now : Int) :
    ∀ (l : List BoardInput) (rs : List BoardResult) (n : Nat),
      boardsLoop parse now l (rs, n, false) =
        (rs ++ (l.takeWhile fun b => !b.infoRaises).map (boardOkResult parse now),
         n + ((l.takeWhile fun b => !b.infoRaises).map
                fun b => (boardOkResult parse now b).total_issues).sum,
         !(l.all fun b => !b.infoRaises)) := by
  intro l
  induction l with
  | nil => intro rs n; simp [boardsLoop]
  | cons b rest ih =>
    intro rs n
    by_cases h : b.infoRaises
    · have herr : _analyze_board parse now b = .error () := by
        unfold _analyze_board
        rw [if_pos (by simp [h])]
      simp [boardsLoop, herr, List.takeWhile_cons, h, List.all_cons]
    · have hok := analyze_board_ok parse now b (by simpa using h)
      simp only [boardsLoop, hok, List.takeWhile_cons, List.all_cons,
        Bool.not_eq_true] at *
      rw [ih]
      simp [h, List.append_assoc]
      omega

/-- C1: at a project with one scrum board holding one sprint with one done
bug of three days resolution, the project-level roll-up equals the zero
metrics dict (count 0), while calculate_resolution_metrics over the
concatenated done-bug Issue objects — the values that fed the sprint's own
metrics — gives count 1 and three days: the roll-up is fed the model_dump
dicts, whose attribute checks all fail, so it never equals the recomputation
the claim describes. -/
theorem c1_project_rollup_zero_despite_nonzero_bug_metrics :
    (analyze_project natTs 0 "PRJ"
      [⟨1, "Board", "scrum", none,
        [⟨⟨10, "Sp1", "closed", "0", some "1000"⟩,
          [⟨"B-1", "fix", some "High", 0, 259200⟩], [], false⟩],
        false⟩]
      [1] none).total_resolution_metrics = some ⟨0, 0, 0, none⟩
    ∧ (get_sprint_detailed_metrics
        [IssueObj.valid ⟨"B-1", "fix", some "High", 0, 259200⟩]).resolution_metrics
      = some ⟨1, 3, 3, some 3⟩
    ∧ calculate_resolution_metrics
        [IssueObj.valid ⟨"B-1", "fix", some "High", 0, 259200⟩]
      = ⟨1, 3, 3, some 3⟩ :=
  ⟨by decide, by decide, by decide⟩

/-- C2: for an issue whose filtered, sorted status changelog has exactly two
entries, A to B at time 0 and B to C at time 100, the computation credits
nothing at all — the result dict is empty, not a dict crediting B with 100 —
because the loop runs over range(len - 2) = range(0). -/
theorem c2_two_entry_changelog_credits_no_duration :
    calculate_time_per_status natTs
      [⟨"1", "0", [⟨"status", "jira", some "status", none, some "A", none, some "B"⟩]⟩,
       ⟨"2", "100", [⟨"status", "jira", some "status", none, some "B", none, some "C"⟩]⟩]
      = [] := by decide

/-- C3 counterexample: a closed sprint overlapping the enabled date range
(ids empty) is nevertheless excluded, because the sprint_states criterion is
consulted as well — refuting the claim that with an enabled date range the
decision is made by the overlap alone. -/
theorem c3_states_checked_even_with_date_range :
    _sprint_in_date_range natTs ⟨1, "S1", "closed", "10", some "20"⟩ 0 100
        ⟨[], some ⟨true, 0, 100⟩, ["active"], false⟩ = true
    ∧ _sprint_matches_filters natTs ⟨1, "S1", "closed", "10", some "20"⟩
        ⟨[], some ⟨true, 0, 100⟩, ["active"], false⟩ = false := by
  constructor <;> decide

/-- C3 (amended): when specific_sprint_ids is empty the three criteria are
not a short-circuiting chain but a conjunction: the sprint passes the filter
exactly when it passes the date-range check (trivial when not enabled) and
the sprint_states check (trivial when the list is empty); the sprint_states
criterion is consulted even when the date-range filter is enabled. -/
theorem c3_filter_applies_date_and_state_conjunctively
    (parse : String → Option Int) (s : SprintM) (cfg : FilterConfig)
    (h : cfg.specific_sprint_ids = []) :
    _sprint_matches_filters parse s cfg =
      (dateRangeCheck parse s cfg
       && (cfg.sprint_states.isEmpty || _sprint_matches_state s cfg.sprint_states)) :=
  matches_filters_eq_conj parse s cfg h

/-- C3 witness: concrete instance of the conjunction, a sprint passing both
the (absent) date-range check and the state check. -/
theorem c3_filter_conjunction_witness :
    _sprint_matches_filters natTs ⟨3, "S3", "Active", "0", some "10"⟩
      ⟨[], none, ["active"], false⟩ = true := by
  rw [c3_filter_applies_date_and_state_conjunctively natTs
        ⟨3, "S3", "Active", "0", some "10"⟩ ⟨[], none, ["active"], false⟩ rfl]
  decide

/-- C4 counterexample: a sprint with both dates whose boundaries touch the
enabled range (start 30 at most range end 100, end 40 at least range start
40) satisfies the claimed inclusive-overlap condition, yet is not included,
because the non-empty sprint_states list excludes it — refuting the claimed
equivalence as stated. -/
theorem c4_inclusive_overlap_not_sufficient_for_inclusion :
    (natTs "30" = some 30 ∧ natTs "40" = some 40
      ∧ ((30 : Int) ≤ 100 ∧ (40 : Int) ≤ 40))
    ∧ _sprint_matches_filters natTs ⟨2, "S2", "future", "30", some "40"⟩
        ⟨[], some ⟨true, 40, 100⟩, ["active", "closed"], false⟩ = false := by
  constructor <;> decide

/-- C4 (amended): under the date-range filter (specific_sprint_ids empty,
date_range enabled) and with sprint_states also empty, a sprint with no end
date is included exactly when include_no_end_date is set, and a sprint whose
dates both parse is included exactly when sprint start is at most the range
end and sprint end is at least the range start, both comparisons
inclusive. -/
theorem c4_date_range_decides_when_states_empty (parse : String → Option Int)
    (s : SprintM) (cfg : FilterConfig) (dr : DateRange)
    (hids : cfg.specific_sprint_ids = [])
    (hdr : cfg.date_range = some dr) (hen : dr.enabled = true)
    (hst : cfg.sprint_states = []) :
    (s.endDate = none →
      _sprint_matches_filters parse s cfg = cfg.include_no_end_date)
    ∧ (∀ e ss se, s.endDate = some e → e ≠ "" →
        parse s.startDate = some ss → parse e = some se →
        _sprint_matches_filters parse s cfg =
          (decide (ss ≤ dr.end_date) && decide (dr.start_date ≤ se))) := by
  have hm := matches_filters_eq_conj parse s cfg hids
  rw [hst] at hm
  simp only [List.isEmpty_nil, Bool.true_or, Bool.and_true] at hm
  have hdc : dateRangeCheck parse s cfg =
      _sprint_in_date_range parse s dr.start_date dr.end_date cfg := by
    unfold dateRangeCheck
    rw [hdr]
    simp [hen]
  rw [hdc] at hm
  constructor
  · intro hend
    rw [hm]
    unfold _sprint_in_date_range
    rw [hend]
  · intro e ss se hend hne hps hpe
    rw [hm]
    unfold _sprint_in_date_range
    rw [hend]
    simp [hne, hps, hpe]

/-- C4 witness: a sprint whose end exactly touches the range start (both 15)
is included — the boundaries count as overlapping. -/
theorem c4_touching_boundary_included_witness :
    _sprint_matches_filters natTs ⟨4, "S4", "active", "5", some "15"⟩
      ⟨[], some ⟨true, 15, 100⟩, [], false⟩ = true := by
  rw [(c4_date_range_decides_when_states_empty natTs ⟨4, "S4", "active", "5", some "15"⟩
        ⟨[], some ⟨true, 15, 100⟩, [], false⟩ ⟨true, 15, 100⟩
        rfl rfl rfl rfl).2 "15" 5 15 rfl (by decide) (by decide) (by decide)]
  decide

/-- C5 counterexample: both zero-valued results — over an empty issue list
and over a list whose only element fails the required-fields check — carry no
min aggregate at all (the min key is absent), refuting the claim that the
zero result contains all four aggregates. -/
theorem c5_zero_result_has_no_min_aggregate :
    (calculate_resolution_metrics []).min_resolution_days = none
    ∧ (calculate_resolution_metrics
        [IssueObj.dump ⟨"K-1", "s", none, 0, 0⟩]).min_resolution_days = none := by
  constructor <;> decide

/-- C5 (amended): resolution metrics over an empty issue list, or over a
list in which no issue has the required fields, return without error a
zero-valued result with count 0 and zero average and max; the min aggregate
is absent from that result. -/
theorem c5_zero_result_without_min (issues : List IssueObj)
    (h : ∀ x ∈ issues, hasRequiredFields x = false) :
    calculate_resolution_metrics issues = ⟨0, 0, 0, none⟩ := by
  unfold calculate_resolution_metrics
  by_cases he : issues.isEmpty
  · simp [he]
  · have ht : resolutionTimes issues = [] := by
      rw [resolutionTimes, List.filterMap_eq_nil_iff]
      intro x hx
      cases x with
      | valid i => exact absurd (h _ hx) (by simp [hasRequiredFields])
      | dump i => rfl
    simp [he, ht]

/-- C5 witness: the zero result at a singleton list whose element is a
model_dump dict. -/
theorem c5_zero_result_witness :
    calculate_resolution_metrics [IssueObj.dump ⟨"K-2", "t", none, 0, 86400⟩]
      = ⟨0, 0, 0, none⟩ :=
  c5_zero_result_without_min _ (by decide)

/-- C6: priority classification is total — every string maps to critical
when it lowers to highest or high, to major when it lowers to medium, and to
minor otherwise (including the empty string, low, lowest and every
unrecognized value). -/
theorem c6_classify_priority_total_three_buckets (s : String) :
    classify_priority s =
      (if pyLower s = "highest" ∨ pyLower s = "high" then "critical"
       else if pyLower s = "medium" then "major" else "minor") := by
  unfold classify_priority
  by_cases h : s = ""
  · subst h; decide
  · rw [if_neg h]
    split_ifs <;> rfl

/-- C7 counterexample: a non-empty list whose only issue carries the
required fields but was created and updated at the same instant (resolution
zero days) makes the lookup return nothing at all, not that issue's data:
the strict comparison against an initial maximum of 0 never fires, refuting
the claim for lists whose maximum resolution time is not positive. -/
theorem c7_zero_day_maximum_returns_none :
    get_longest_resolution_issue
      [IssueObj.valid ⟨"Z-1", "same day", some "High", 500, 500⟩] = none := by
  decide

/-- C7 (amended): for every non-empty list of issues that all carry the
required fields and whose maximum resolution time is positive, the lookup
returns the data of the first issue in input order attaining that maximum
(ties keep the first encountered, deterministically); when the maximum is
not positive the lookup returns nothing. -/
theorem c7_first_issue_attaining_positive_max (l : List IssueE)
    (h : 0 < foldMaxFrom 0 l) :
    get_longest_resolution_issue (l.map IssueObj.valid) =
      (l.find? fun i => decide (resolution_time_days i = foldMaxFrom 0 l)).map
        mkLongestInfo := by
  have hne : (l.map IssueObj.valid).isEmpty ≠ true := by
    cases l with
    | nil => simp [foldMaxFrom] at h
    | cons i t => simp
  unfold get_longest_resolution_issue
  rw [if_neg hne, longestLoop_spec, if_pos h]

/-- C7 witness: two issues tied at three days; the first in input order is
returned. -/
theorem c7_first_issue_attaining_max_witness :
    get_longest_resolution_issue
      ([⟨"A-1", "first", some "High", 0, 259200⟩,
        ⟨"A-2", "tied", some "Low", 0, 259200⟩].map IssueObj.valid)
      = some ⟨"A-1", "first", "High", 3, 0, 259200⟩ := by
  rw [c7_first_issue_attaining_positive_max
        [⟨"A-1", "first", some "High", 0, 259200⟩,
         ⟨"A-2", "tied", some "Low", 0, 259200⟩] (by decide)]
  decide

/-- C8 counterexample: one board whose first sprint analysis raises and
whose second sprint is healthy (with one bug): the result keeps the board
but contains neither sprint — the healthy later sprint is dropped as well,
refuting the claim that only the raising sprint is omitted while the rest
still completes. -/
theorem c8_exception_drops_following_sprint :
    (analyze_project natTs 0 "PRJ"
      [⟨1, "B", "scrum", none,
        [⟨⟨10, "S1", "active", "0", some "10"⟩, [], [], true⟩,
         ⟨⟨11, "S2", "active", "0", some "10"⟩,
           [⟨"B-2", "x", none, 0, 86400⟩], [], false⟩],
        false⟩]
      [1] none).boards
      = [⟨⟨1, "B", "scrum", "Unknown"⟩, [], 0⟩] := by decide

/-- C8 (amended): analyze_project always returns a result rather than
raising.  A sprint-level exception is caught at the board level: the sprints
appearing for a board are exactly those of the longest prefix of its sprints
whose analysis does not raise, and every other board is unaffected.  A
board-level exception (while building the board info) truncates the board
walk at the longest prefix of boards whose info construction does not raise,
and additionally skips the project-level metrics roll-up, which then stays
the initial empty value. -/
theorem c8_analyze_project_truncated_results (parse : String → Option Int)
    (now : Int) (project : String) (boards : List BoardInput) (ids : List Int)
    (cfg : Option FilterConfig) :
    (analyze_project parse now project boards ids cfg).boards =
      ((filter_scrum_boards boards ids).takeWhile fun b => !b.infoRaises).map
        (boardOkResult parse now)
    ∧ (analyze_project parse now project boards ids cfg).total_issues =
        (((filter_scrum_boards boards ids).takeWhile fun b => !b.infoRaises).map
          fun b => (boardOkResult parse now b).total_issues).sum
    ∧ (analyze_project parse now project boards ids cfg).total_resolution_metrics =
        (if (filter_scrum_boards boards ids).all (fun b => !b.infoRaises) then
          some (calculate_resolution_metrics (collectAllIssues
            (((filter_scrum_boards boards ids).takeWhile fun b => !b.infoRaises).map
              (boardOkResult parse now))))
        else none) := by
  unfold analyze_project
  rw [boardsLoop_spec]
  refine ⟨by simp, by simp, ?_⟩
  cases hall : (filter_scrum_boards boards ids).all fun b => !b.infoRaises with
  | false => simp [hall]
  | true => simp [hall]

/-- C9: the time-per-status computation on any list whose entry timestamps
all parse equals the full adjacent-pair accumulation applied to the sorted
list with its last entry removed: the loop bound of len - 2 processes
exactly the pair indices 0 .. n-3, so the transition between the
second-to-last and last entries never contributes a duration. -/
theorem c9_loop_drops_last_transition (parse : String → Option Int)
    (entries : List Changelog)
    (h : entries.all (fun c => (parse c.created).isSome) = true) :
    calculate_time_per_status parse entries =
      adjacentPairDurations parse ((sortByCreated parse entries).dropLast) [] := by
  unfold calculate_time_per_status
  rw [if_pos h, timeLoop_eq_adjacent_dropLast]

/-- C9 witness: three entries; the computation agrees with the full chain on
the sorted list without its final entry. -/
theorem c9_loop_drops_last_transition_witness :
    calculate_time_per_status natTs
      [⟨"1", "0", [⟨"status", "jira", some "status", none, some "A", none, some "B"⟩]⟩,
       ⟨"2", "100", [⟨"status", "jira", some "status", none, some "B", none, some "C"⟩]⟩,
       ⟨"3", "250", [⟨"status", "jira", some "status", none, some "C", none, some "D"⟩]⟩]
      = adjacentPairDurations natTs
          ((sortByCreated natTs
            [⟨"1", "0", [⟨"status", "jira", some "status", none, some "A", none, some "B"⟩]⟩,
             ⟨"2", "100", [⟨"status", "jira", some "status", none, some "B", none, some "C"⟩]⟩,
             ⟨"3", "250", [⟨"status", "jira", some "status", none, some "C", none, some "D"⟩]⟩]).dropLast)
          [] :=
  c9_loop_drops_last_transition natTs _ (by decide)

/-- C10: the sprint-window changelog filter returns the original list
unchanged whenever parsing raises — on the sprint start date, on a non-falsy
end date, or on any entry timestamp — and on a fully successful parse keeps
exactly the entries whose timestamp is at least the sprint start and at most
the sprint end (no upper bound when the end date is falsy). -/
theorem c10_sprint_window_filter_or_original (parse : String → Option Int)
    (changelogs : List Changelog) (sprint : SprintM) :
    (parse sprint.startDate = none →
      filter_changelogs_by_sprint_dates parse changelogs sprint = changelogs)
    ∧ (∀ e, sprint.endDate = some e → e ≠ "" → parse e = none →
      filter_changelogs_by_sprint_dates parse changelogs sprint = changelogs)
    ∧ ((∃ c ∈ changelogs, parse c.created = none) →
      filter_changelogs_by_sprint_dates parse changelogs sprint = changelogs)
    ∧ (∀ ss se, parse sprint.startDate = some ss → pyEndTs parse sprint = some se →
      (∀ c ∈ changelogs, (parse c.created).isSome) →
      filter_changelogs_by_sprint_dates parse changelogs sprint =
        changelogs.filter fun c => inWindow ss se ((parse c.created).getD 0)) := by
  refine ⟨?_, ?_, ?_, ?_⟩
  · intro h
    unfold filter_changelogs_by_sprint_dates
    rw [h]
  · intro e hend hne hpe
    unfold filter_changelogs_by_sprint_dates
    cases hp : parse sprint.startDate with
    | none => rfl
    | some ss =>
      have hpt : pyEndTs parse sprint = none := by
        unfold pyEndTs
        rw [hend]
        simp [hne, hpe]
      rw [hpt]
  · intro h
    unfold filter_changelogs_by_sprint_dates
    cases hp : parse sprint.startDate with
    | none => rfl
    | some ss =>
      cases he : pyEndTs parse sprint with
      | none => rfl
      | some se =>
        show (match windowLoop parse ss se changelogs with
              | none => changelogs
              | some filtered => filtered) = changelogs
        rw [windowLoop_eq_none parse ss se changelogs h]
  · intro ss se hps hpe hall
    unfold filter_changelogs_by_sprint_dates
    rw [hps, hpe]
    show (match windowLoop parse ss se changelogs with
          | none => changelogs
          | some filtered => filtered) = _
    rw [windowLoop_eq_filter parse ss se changelogs hall]

/-- C10 witness: with parseable dates, an entry before the window is
dropped, one inside is kept, one after the end is dropped. -/
theorem c10_sprint_window_filter_witness :
    filter_changelogs_by_sprint_dates natTs
      [⟨"1", "5", []⟩, ⟨"2", "20", []⟩, ⟨"3", "50", []⟩]
      ⟨7, "S", "active", "10", some "40"⟩
      = [⟨"2", "20", []⟩] := by
  rw [(c10_sprint_window_filter_or_original natTs
        [⟨"1", "5", []⟩, ⟨"2", "20", []⟩, ⟨"3", "50", []⟩]
        ⟨7, "S", "active", "10", some "40"⟩).2.2.2
      10 (some 40) (by decide) (by decide) (by decide)]
  decide
